import Mathlib

/-!
A shallow embedding of the libcamera4j JNI native layer
(src/libcamera-4j/src/main/native/libcamera4j.cpp).

Modelling conventions:
* jlong handles and jint arguments are Lean Int; the 64-bit handle counter
  uses explicit two's-complement wraparound (wrapI64);
* each global std::map table is an association list whose list order models
  the map's iteration order;
* a JNI function that may call ThrowNew returns an Option String holding the
  pending exception message (none means no exception was raised); the
  formatted mmap error messages are modelled by their constant prefixes;
* jdouble values read from metadata are modelled as Rat (only the exact
  literals 0 and 1 appear);
* an out-of-bounds native access with no prior bounds check (vector
  operator[] through CameraConfiguration::at) is modelled as a distinct
  undefined-behaviour outcome, not as an error return.
-/

namespace LibCamera4j

/-- std::map::find on an association list. -/
def lookupA {κ α : Type} [DecidableEq κ] : κ → List (κ × α) → Option α
  | _, [] => none
  | k, (k', v) :: rest => if k' = k then some v else lookupA k rest

/-- In-place update of the entry for an existing key (assignment through a
std::map iterator). -/
def updateAssoc {κ α : Type} [DecidableEq κ] : List (κ × α) → κ → α → List (κ × α)
  | [], _, _ => []
  | (k', v') :: rest, k, v =>
      if k' = k then (k', v) :: rest else (k', v') :: updateAssoc rest k v

/-- std::map operator[] assignment: update the entry, or add a fresh one. -/
def upsertAssoc {κ α : Type} [DecidableEq κ] : List (κ × α) → κ → α → List (κ × α)
  | [], k, v => [(k, v)]
  | (k', v') :: rest, k, v =>
      if k' = k then (k', v) :: rest else (k', v') :: upsertAssoc rest k v

/-- std::map::erase by key. -/
def eraseAssoc {κ α : Type} [DecidableEq κ] : List (κ × α) → κ → List (κ × α)
  | [], _ => []
  | (k', v') :: rest, k => if k' = k then rest else (k', v') :: eraseAssoc rest k

/-- The control values this layer reads or writes (the ControlList entries the
bindings use for the claims under study). -/
structure ControlList where
  afMode : Option Int
  exposureTime : Option Int
  analogueGain : Option Rat
deriving DecidableEq

/-- A freshly created, empty libcamera ControlList. -/
def ControlList.empty : ControlList := ⟨none, none, none⟩

/-- A native libcamera::Request: its native identity, its routing cookie, its
outgoing control list (controls()) and its result metadata (metadata()). -/
structure RequestObj where
  ptr : Nat
  cookie : Nat
  controls : ControlList
  metadata : ControlList
deriving DecidableEq

/-- A native libcamera::Camera: its identity, and the status code the
underlying pipeline returns from queueRequest. -/
structure CameraObj where
  ptr : Nat
  queueStatus : Int
deriving DecidableEq

/-- One stream of a CameraConfiguration; streamPtr models the native pointer
returned by StreamConfiguration::stream(). -/
structure StreamCfg where
  streamPtr : Nat
deriving DecidableEq

/-- One plane of a FrameBuffer as handed out by libcamera: file descriptor,
intra-buffer offset, declared payload length, whether an mmap of it would
succeed, and the descriptor's backing bytes. -/
structure FdPlane where
  fd : Int
  offset : Nat
  length : Nat
  mmapOk : Bool
  mem : List Nat
deriving DecidableEq

structure FrameBufferObj where
  planes : List FdPlane
deriving DecidableEq

/-- A FrameBufferAllocator: its per-stream buffer lists
(FrameBufferAllocator::buffers; a missing stream yields the empty list). -/
structure AllocatorObj where
  buffers : List (Nat × List FrameBufferObj)
deriving DecidableEq

/-- One mapped plane as stored by nativeMapBuffer: the mapped bytes, the
mapped length (plane offset + declared payload length) and the intra-plane
offset. -/
structure MappedPlane where
  data : List Nat
  length : Nat
  offset : Nat
deriving DecidableEq

structure MappedBuffer where
  planes : List MappedPlane
  totalLength : Nat
deriving DecidableEq

/-- The global tables of libcamera4j.cpp plus the handle counter. -/
structure NativeState where
  cameras : List (Int × CameraObj)
  configurations : List (Int × List StreamCfg)
  allocators : List (Int × AllocatorObj)
  requests : List (Int × RequestObj)
  completedRequests : List (Int × List Nat)
  mappedBuffers : List (Int × MappedBuffer)
  nextHandle : Int
deriving DecidableEq

/-- Two's-complement wraparound of a signed 64-bit (jlong) value. -/
def wrapI64 (x : Int) : Int := (x + 2 ^ 63) % 2 ^ 64 - 2 ^ 63

/-- allocHandle(): return g_nextHandle++, as a step on the counter value. -/
def allocHandle (next : Int) : Int × Int := (next, wrapI64 (next + 1))

/-- The values returned by n successive allocHandle() calls starting from a
given counter value. -/
def handleSeq : Nat → Int → List Int
  | 0, _ => []
  | n + 1, st => (allocHandle st).1 :: handleSeq n (allocHandle st).2

/-- The counter value after n allocHandle() calls. -/
def handleStateAfter : Nat → Int → Int
  | 0, st => st
  | n + 1, st => handleStateAfter n (allocHandle st).2

/-- Java_in_virit_libcamera4j_Request_nativeDestroy: erase from the Request
table. -/
def Request_nativeDestroy (s : NativeState) (h : Int) : NativeState :=
  { s with requests := eraseAssoc s.requests h }

/-- Java_in_virit_libcamera4j_Request_nativeSetAfMode: silently returns on a
lookup miss, otherwise writes AfMode into the request's outgoing controls. -/
def Request_nativeSetAfMode (s : NativeState) (h mode : Int) :
    NativeState × Option String :=
  match lookupA h s.requests with
  | none => (s, none)
  | some r =>
      let r' := { r with controls := { r.controls with afMode := some mode } }
      ({ s with requests := updateAssoc s.requests h r' }, none)

/-- Java_in_virit_libcamera4j_Request_nativeSetExposureTime: silently returns
on a lookup miss, otherwise writes ExposureTime into the outgoing controls. -/
def Request_nativeSetExposureTime (s : NativeState) (h micro : Int) :
    NativeState × Option String :=
  match lookupA h s.requests with
  | none => (s, none)
  | some r =>
      let r' := { r with controls := { r.controls with exposureTime := some micro } }
      ({ s with requests := updateAssoc s.requests h r' }, none)

/-- Java_in_virit_libcamera4j_Request_nativeGetExposureTime: 0 on a lookup
miss; otherwise the ExposureTime entry of the result metadata, or 0 when the
pipeline did not report one. -/
def Request_nativeGetExposureTime (s : NativeState) (h : Int) : Int :=
  match lookupA h s.requests with
  | none => 0
  | some r =>
      match r.metadata.exposureTime with
      | some e => e
      | none => 0

/-- Java_in_virit_libcamera4j_Request_nativeGetAnalogueGain: 1.0 on a lookup
miss; otherwise the AnalogueGain entry of the result metadata, or 1.0 when
absent. -/
def Request_nativeGetAnalogueGain (s : NativeState) (h : Int) : Rat :=
  match lookupA h s.requests with
  | none => 1
  | some r => (r.metadata.analogueGain).getD 1

/-- Java_in_virit_libcamera4j_Camera_nativeQueueRequest: throws a named
exception on either lookup miss, otherwise delegates to the pipeline. -/
def Camera_nativeQueueRequest (s : NativeState) (camH reqH : Int) :
    Int × Option String :=
  match lookupA camH s.cameras with
  | none => (-1, some "Invalid Camera handle")
  | some cam =>
      match lookupA reqH s.requests with
      | none => (-1, some "Invalid Request handle")
      | some _ => (cam.queueStatus, none)

/-- The reverse scan in requestCompleted: the first camera (in table order)
whose native pointer equals the cookie. -/
def findCameraByPtr : List (Int × CameraObj) → Nat → Option Int
  | [], _ => none
  | (h, c) :: rest, p => if c.ptr = p then some h else findCameraByPtr rest p

/-- The reverse scan in nativePollCompletedRequest: the first request handle
whose request object is the given native pointer. -/
def findRequestByPtr : List (Int × RequestObj) → Nat → Option Int
  | [], _ => none
  | (h, r) :: rest, p => if r.ptr = p then some h else findRequestByPtr rest p

/-- The requestCompleted signal handler: route the completed request, through
its cookie (the owning camera's native pointer), to that camera's FIFO
queue; a zero cookie or an unmatched camera drops the completion. -/
def requestCompleted (s : NativeState) (reqPtr cookie : Nat) : NativeState :=
  if cookie = 0 then s
  else
    match findCameraByPtr s.cameras cookie with
    | none => s
    | some camH =>
        let q := (lookupA camH s.completedRequests).getD [] ++ [reqPtr]
        { s with completedRequests := upsertAssoc s.completedRequests camH q }

/-- Java_in_virit_libcamera4j_Camera_nativePollCompletedRequest: 0 on an empty
or missing queue; otherwise pop the oldest completion and resolve it back to
its request handle, returning 0 when no handle still maps to it. -/
def Camera_nativePollCompletedRequest (s : NativeState) (camH : Int) :
    Int × NativeState :=
  match lookupA camH s.completedRequests with
  | none => (0, s)
  | some [] => (0, s)
  | some (r :: rest) =>
      let s' := { s with completedRequests := updateAssoc s.completedRequests camH rest }
      match findRequestByPtr s.requests r with
      | some h => (h, s')
      | none => (0, s')

/-- Outcome of the plane-mapping loop of nativeMapBuffer.  On success: the
accumulated mapped planes and the accumulated total length.  On failure: the
exception message, the number of successful mmap calls made so far, and the
number of munmap calls performed by the roll-back loop. -/
inductive PlaneLoop where
  | ok : List MappedPlane → Nat → PlaneLoop
  | fail : String → Nat → Nat → PlaneLoop
deriving DecidableEq

/-- The per-plane loop of nativeMapBuffer (source order: reject a negative fd,
then a zero computed map size, then attempt mmap; each failure first unmaps
every plane accumulated so far).  mm counts successful mmap calls. -/
def mapPlanesLoop : List FdPlane → List MappedPlane → Nat → Nat → PlaneLoop
  | [], acc, total, _ => .ok acc total
  | p :: ps, acc, total, mm =>
      if p.fd < 0 then .fail "Invalid plane fd" mm acc.length
      else if p.offset + p.length = 0 then .fail "Zero-size plane" mm acc.length
      else if p.mmapOk = false then .fail "Failed to mmap buffer plane" mm acc.length
      else
        let mp : MappedPlane := ⟨p.mem.take (p.offset + p.length), p.offset + p.length, p.offset⟩
        mapPlanesLoop ps (acc ++ [mp]) (total + p.length) (mm + 1)

/-- Outcome of nativeMapBuffer.  ok: the returned view handle, the new global
state.  err: the exception message, the (unchanged) global state, and the
number of residual mappings this call left behind.  ub: an unchecked
out-of-bounds native access was performed (undefined behaviour). -/
inductive MapResult where
  | ok : Int → NativeState → MapResult
  | err : String → NativeState → Nat → MapResult
  | ub : MapResult
deriving DecidableEq

/-- CameraConfiguration::at(index) through vector operator[]: the element when
the index is in range, and none (undefined behaviour at the call site)
otherwise. -/
def cfgAt (cfg : List StreamCfg) (idx : Int) : Option StreamCfg :=
  if idx < 0 then none else cfg.get? idx.toNat

/-- Java_in_virit_libcamera4j_FrameBuffer_nativeMapBuffer.  Note that the
source resolves configuration->at(streamIndex) with no bounds check on
streamIndex (unlike bufferIndex, which is checked), so an out-of-range
streamIndex is undefined behaviour rather than an error. -/
def FrameBuffer_nativeMapBuffer (s : NativeState) (allocH cfgH streamIndex bufferIndex : Int) :
    MapResult :=
  match lookupA allocH s.allocators with
  | none => .err "Invalid FrameBufferAllocator handle" s 0
  | some alloc =>
    match lookupA cfgH s.configurations with
    | none => .err "Invalid CameraConfiguration handle" s 0
    | some cfg =>
      match cfgAt cfg streamIndex with
      | none => .ub
      | some sc =>
        let buffers := (lookupA sc.streamPtr alloc.buffers).getD []
        if bufferIndex < 0 ∨ (buffers.length : Int) ≤ bufferIndex then
          .err "Invalid buffer index" s 0
        else
          let fb := (buffers.get? bufferIndex.toNat).getD ⟨[]⟩
          if fb.planes = [] then .err "FrameBuffer has no planes" s 0
          else
            match mapPlanesLoop fb.planes [] 0 0 with
            | .fail msg mm um => .err msg s (mm - um)
            | .ok planes total =>
                let h := s.nextHandle
                let s' := { s with
                  nextHandle := wrapI64 (s.nextHandle + 1),
                  mappedBuffers := upsertAssoc s.mappedBuffers h ⟨planes, total⟩ }
                .ok h s'

/-- Java_in_virit_libcamera4j_FrameBuffer_nativeGetBufferSize: 0 on a lookup
miss, otherwise the stored total logical length of the view. -/
def FrameBuffer_nativeGetBufferSize (s : NativeState) (mapH : Int) : Nat :=
  match lookupA mapH s.mappedBuffers with
  | none => 0
  | some mb => mb.totalLength

/-- JNI SetByteArrayRegion: overwrite dest starting at start with src; when
the region would exceed the array the call raises
ArrayIndexOutOfBoundsException and writes nothing. -/
def setByteArrayRegion (dest : List Nat) (start : Nat) (src : List Nat) : List Nat :=
  if start + src.length ≤ dest.length then
    dest.take start ++ src ++ dest.drop (start + src.length)
  else dest

/-- The per-plane loop of nativeCopyBuffer: walk the planes in order, skip
each plane's leading offset region, copy min(remaining, payload) bytes
contiguously into dest, and stop once remaining reaches zero. -/
def copyPlanes : List MappedPlane → List Nat → Nat → Nat → List Nat
  | [], dest, _, _ => dest
  | p :: ps, dest, destOff, remaining =>
      if remaining = 0 then dest
      else
        let planeDataLen := p.length - p.offset
        let copyLen := min remaining planeDataLen
        let src := (p.data.drop p.offset).take copyLen
        copyPlanes ps (setByteArrayRegion dest destOff src) (destOff + copyLen) (remaining - copyLen)

/-- Java_in_virit_libcamera4j_FrameBuffer_nativeCopyBuffer: on a lookup miss
throw "Invalid map handle"; otherwise copy min(length, totalLength) bytes of
plane payload into dest starting at offset. -/
def FrameBuffer_nativeCopyBuffer (s : NativeState) (mapH : Int) (dest : List Nat)
    (offset length : Nat) : List Nat × Option String :=
  match lookupA mapH s.mappedBuffers with
  | none => (dest, some "Invalid map handle")
  | some mb => (copyPlanes mb.planes dest offset (min length mb.totalLength), none)

/-- The concatenated logical payload of a mapped view: every plane's mapped
bytes beyond its leading offset region, in plane order. -/
def payloadBytes (mb : MappedBuffer) : List Nat :=
  (mb.planes.map (fun p => p.data.drop p.offset)).flatten

/-! ### Association-list helper lemmas -/

theorem lookupA_updateAssoc_self {κ α : Type} [DecidableEq κ] (l : List (κ × α)) (k : κ) (v w : α)
    (h : lookupA k l = some w) : lookupA k (updateAssoc l k v) = some v := by
  induction l with
  | nil => simp [lookupA] at h
  | cons p rest ih =>
    obtain ⟨k', v'⟩ := p
    by_cases hk : k' = k
    · simp [lookupA, updateAssoc, hk]
    · simp only [lookupA, updateAssoc, if_neg hk] at h ⊢
      exact ih h

theorem lookupA_upsertAssoc_self {κ α : Type} [DecidableEq κ] (l : List (κ × α)) (k : κ) (v : α) :
    lookupA k (upsertAssoc l k v) = some v := by
  induction l with
  | nil => simp [lookupA, upsertAssoc]
  | cons p rest ih =>
    obtain ⟨k', v'⟩ := p
    by_cases hk : k' = k
    · simp [lookupA, upsertAssoc, hk]
    · simp only [upsertAssoc, if_neg hk, lookupA, ih]

/-! ### State-preservation lemmas: the completion router only touches the
completion queues, and polling only touches the completion queues. -/

theorem requestCompleted_requests (s : NativeState) (r c : Nat) :
    (requestCompleted s r c).requests = s.requests := by
  unfold requestCompleted
  split
  · rfl
  · split <;> rfl

theorem requestCompleted_cameras (s : NativeState) (r c : Nat) :
    (requestCompleted s r c).cameras = s.cameras := by
  unfold requestCompleted
  split
  · rfl
  · split <;> rfl

theorem requestCompleted_queue (s : NativeState) (r c : Nat) (camH : Int)
    (hc : c ≠ 0) (hcam : findCameraByPtr s.cameras c = some camH) :
    (requestCompleted s r c).completedRequests =
      upsertAssoc s.completedRequests camH
        ((lookupA camH s.completedRequests).getD [] ++ [r]) := by
  unfold requestCompleted
  rw [if_neg hc, hcam]

theorem poll_requests (s : NativeState) (camH : Int) :
    ((Camera_nativePollCompletedRequest s camH).2).requests = s.requests := by
  unfold Camera_nativePollCompletedRequest
  split
  · rfl
  · rfl
  · split <;> rfl

/-! ### C1: exposure-time set/get round trip -/

/-- A state with a single valid Operation (Request handle 2) whose result
metadata is still empty, i.e. the request has not completed yet. -/
def c1State : NativeState :=
  { cameras := [], configurations := [], allocators := [],
    requests := [(2, ⟨10, 0, ControlList.empty, ControlList.empty⟩)],
    completedRequests := [], mappedBuffers := [], nextHandle := 3 }

/-- C1 counterexample: on a valid Operation handle whose metadata is still
empty, setting the exposure-time control to 15000 and calling the getter
returns 0, not 15000 — the setter writes the outgoing control list while the
getter reads the result metadata. -/
theorem exposure_roundtrip_counterexample :
    Request_nativeGetExposureTime (Request_nativeSetExposureTime c1State 2 15000).1 2 = 0 ∧
      (0 : Int) ≠ 15000 := by
  decide

/-- C1 (amended): for every Operation handle valid in the Request table whose
result metadata does not yet contain an exposure time (in particular before
it is queued), setting the exposure-time control to a value stores that value
in the Operation's outgoing control list, but the exposure-time getter (which
reads the result metadata) returns 0, not the value that was set. -/
theorem exposure_set_get_amended (s : NativeState) (h micro : Int) (r : RequestObj)
    (hr : lookupA h s.requests = some r)
    (hm : r.metadata.exposureTime = none) :
    Request_nativeGetExposureTime (Request_nativeSetExposureTime s h micro).1 h = 0 ∧
      (∃ r', lookupA h (Request_nativeSetExposureTime s h micro).1.requests = some r' ∧
        r'.controls.exposureTime = some micro ∧ r'.metadata = r.metadata) := by
  unfold Request_nativeSetExposureTime
  rw [hr]
  have hlook := lookupA_updateAssoc_self s.requests h
    { r with controls := { r.controls with exposureTime := some micro } } r hr
  constructor
  · unfold Request_nativeGetExposureTime
    simp only [hlook]
    simp [hm]
  · exact ⟨_, hlook, rfl, rfl⟩

/-- C1 witness: the amended statement evaluated on the concrete state. -/
theorem exposure_set_get_amended_witness :
    (lookupA 2 c1State.requests = some ⟨10, 0, ControlList.empty, ControlList.empty⟩) ∧
      (Request_nativeGetExposureTime (Request_nativeSetExposureTime c1State 2 15000).1 2 = 0 ∧
        ∃ r', lookupA 2 (Request_nativeSetExposureTime c1State 2 15000).1.requests = some r' ∧
          r'.controls.exposureTime = some 15000 ∧
          r'.metadata = (ControlList.empty : ControlList)) :=
  ⟨by decide, exposure_set_get_amended c1State 2 15000
    ⟨10, 0, ControlList.empty, ControlList.empty⟩ (by decide) (by decide)⟩

/-! ### C9: analogue-gain default -/

/-- C9: on a valid Operation handle whose result metadata never reported an
analogue gain, the analogue-gain getter returns the documented default 1.0,
which is neither zero nor an error. -/
theorem analogue_gain_default_one (s : NativeState) (h : Int) (r : RequestObj)
    (hr : lookupA h s.requests = some r)
    (hm : r.metadata.analogueGain = none) :
    Request_nativeGetAnalogueGain s h = 1 ∧ Request_nativeGetAnalogueGain s h ≠ 0 := by
  simp [Request_nativeGetAnalogueGain, hr, hm]

/-- C9 witness: the default-gain statement evaluated on the concrete state. -/
theorem analogue_gain_default_one_witness :
    (lookupA 2 c1State.requests = some ⟨10, 0, ControlList.empty, ControlList.empty⟩) ∧
      (Request_nativeGetAnalogueGain c1State 2 = 1 ∧
        Request_nativeGetAnalogueGain c1State 2 ≠ 0) :=
  ⟨by decide, analogue_gain_default_one c1State 2
    ⟨10, 0, ControlList.empty, ControlList.empty⟩ (by decide) (by decide)⟩

/-! ### C3: error taxonomy on handle-lookup misses -/

/-- A completely empty global state: every table empty. -/
def emptyState : NativeState :=
  { cameras := [], configurations := [], allocators := [], requests := [],
    completedRequests := [], mappedBuffers := [], nextHandle := 1 }

/-- C3 counterexample: the control setters on an invalid (never created or
destroyed) Operation handle return silently — no exception is raised and the
state is unchanged — contradicting the claim that they raise the
invalid-handle error. -/
theorem setter_silent_counterexample :
    Request_nativeSetAfMode emptyState 5 1 = (emptyState, none) ∧
      Request_nativeSetExposureTime emptyState 5 15000 = (emptyState, none) := by
  decide

/-- C3 (amended): a lookup miss on a handle-taking operation that returns a
status, such as queueRequest, throws a distinct exception naming the resource
kind, but the void write-path control setters (setAfMode, setExposureTime) on
an invalid or destroyed Operation handle return silently with no exception
and no state change. -/
theorem handle_error_taxonomy_amended (s : NativeState) (camH camH2 reqH mode micro : Int)
    (cam : CameraObj)
    (hc : lookupA camH s.cameras = none)
    (hc2 : lookupA camH2 s.cameras = some cam)
    (hr : lookupA reqH s.requests = none) :
    Camera_nativeQueueRequest s camH reqH = (-1, some "Invalid Camera handle") ∧
      Camera_nativeQueueRequest s camH2 reqH = (-1, some "Invalid Request handle") ∧
      Request_nativeSetAfMode s reqH mode = (s, none) ∧
      Request_nativeSetExposureTime s reqH micro = (s, none) := by
  refine ⟨?_, ?_, ?_, ?_⟩
  · unfold Camera_nativeQueueRequest; rw [hc]
  · unfold Camera_nativeQueueRequest; rw [hc2, hr]
  · unfold Request_nativeSetAfMode; rw [hr]
  · unfold Request_nativeSetExposureTime; rw [hr]

/-- A state with one camera (handle 1) and no requests. -/
def c3State : NativeState :=
  { cameras := [(1, ⟨5, 0⟩)], configurations := [], allocators := [], requests := [],
    completedRequests := [], mappedBuffers := [], nextHandle := 2 }

/-- C3 witness: the amended taxonomy evaluated on the concrete state. -/
theorem handle_error_taxonomy_amended_witness :
    (lookupA 9 c3State.cameras = none ∧ lookupA 1 c3State.cameras = some ⟨5, 0⟩ ∧
        lookupA 7 c3State.requests = none) ∧
      (Camera_nativeQueueRequest c3State 9 7 = (-1, some "Invalid Camera handle") ∧
        Camera_nativeQueueRequest c3State 1 7 = (-1, some "Invalid Request handle") ∧
        Request_nativeSetAfMode c3State 7 3 = (c3State, none) ∧
        Request_nativeSetExposureTime c3State 7 15000 = (c3State, none)) :=
  ⟨⟨by decide, by decide, by decide⟩,
    handle_error_taxonomy_amended c3State 9 1 7 3 15000 ⟨5, 0⟩ (by decide) (by decide) (by decide)⟩

/-! ### C7: poll semantics of the completion router -/

/-- C7: polling an empty completion queue returns 0 ("none"); completions
routed by requestCompleted are delivered in FIFO order, and each completed
operation is returned by exactly one poll: after routing r1 then r2, three
successive polls return their handles in order and then 0. -/
theorem poll_fifo_exactly_once (s : NativeState) (camH h1 h2 : Int) (cp r1 r2 : Nat)
    (hq : lookupA camH s.completedRequests = some [])
    (hcp : cp ≠ 0)
    (hcam : findCameraByPtr s.cameras cp = some camH)
    (hr1 : findRequestByPtr s.requests r1 = some h1)
    (hr2 : findRequestByPtr s.requests r2 = some h2) :
    (Camera_nativePollCompletedRequest s camH).1 = 0 ∧
      (Camera_nativePollCompletedRequest
        (requestCompleted (requestCompleted s r1 cp) r2 cp) camH).1 = h1 ∧
      (Camera_nativePollCompletedRequest
        ((Camera_nativePollCompletedRequest
          (requestCompleted (requestCompleted s r1 cp) r2 cp) camH).2) camH).1 = h2 ∧
      (Camera_nativePollCompletedRequest
        ((Camera_nativePollCompletedRequest
          ((Camera_nativePollCompletedRequest
            (requestCompleted (requestCompleted s r1 cp) r2 cp) camH).2) camH).2) camH).1 = 0 := by
  set s1 := requestCompleted s r1 cp with hs1
  set s2 := requestCompleted s1 r2 cp with hs2
  have hs1cam : s1.cameras = s.cameras := requestCompleted_cameras s r1 cp
  have hs1req : s1.requests = s.requests := requestCompleted_requests s r1 cp
  have hs2req : s2.requests = s.requests := by
    rw [hs2, requestCompleted_requests, hs1req]
  have hs1q : lookupA camH s1.completedRequests = some [r1] := by
    rw [hs1, requestCompleted_queue s r1 cp camH hcp hcam, hq]
    exact lookupA_upsertAssoc_self _ _ _
  have hs2q : lookupA camH s2.completedRequests = some [r1, r2] := by
    have hcam1 : findCameraByPtr s1.cameras cp = some camH := by rw [hs1cam]; exact hcam
    rw [hs2, requestCompleted_queue s1 r2 cp camH hcp hcam1, hs1q]
    exact lookupA_upsertAssoc_self _ _ _
  -- first poll on s2 pops r1 and returns h1
  have hfind1 : findRequestByPtr s2.requests r1 = some h1 := by rw [hs2req]; exact hr1
  have hpoll1 : Camera_nativePollCompletedRequest s2 camH =
      (h1, { s2 with completedRequests := updateAssoc s2.completedRequests camH [r2] }) := by
    simp only [Camera_nativePollCompletedRequest, hs2q, hfind1]
  set t1 : NativeState :=
    { s2 with completedRequests := updateAssoc s2.completedRequests camH [r2] } with ht1
  have ht1q : lookupA camH t1.completedRequests = some [r2] :=
    lookupA_updateAssoc_self s2.completedRequests camH [r2] [r1, r2] hs2q
  have hfind2 : findRequestByPtr t1.requests r2 = some h2 := by
    rw [ht1]; exact hs2req ▸ hr2
  have hpoll2 : Camera_nativePollCompletedRequest t1 camH =
      (h2, { t1 with completedRequests := updateAssoc t1.completedRequests camH [] }) := by
    simp only [Camera_nativePollCompletedRequest, ht1q, hfind2]
  set t2 : NativeState :=
    { t1 with completedRequests := updateAssoc t1.completedRequests camH [] } with ht2
  have ht2q : lookupA camH t2.completedRequests = some [] :=
    lookupA_updateAssoc_self t1.completedRequests camH [] [r2] ht1q
  have hpoll3 : Camera_nativePollCompletedRequest t2 camH = (0, t2) := by
    unfold Camera_nativePollCompletedRequest
    rw [ht2q]
  have hpoll0 : Camera_nativePollCompletedRequest s camH = (0, s) := by
    unfold Camera_nativePollCompletedRequest
    rw [hq]
  refine ⟨by rw [hpoll0], by rw [hpoll1], ?_, ?_⟩
  · rw [hpoll1, hpoll2]
  · rw [hpoll1, hpoll2, hpoll3]

/-- A state for the completion-router witnesses: one camera (handle 1, native
pointer 5) with an empty completion queue and two requests (handles 2 and 3,
native pointers 11 and 12) created with cookie 5. -/
def c7State : NativeState :=
  { cameras := [(1, ⟨5, 0⟩)], configurations := [], allocators := [],
    requests := [(2, ⟨11, 5, ControlList.empty, ControlList.empty⟩),
                 (3, ⟨12, 5, ControlList.empty, ControlList.empty⟩)],
    completedRequests := [(1, [])], mappedBuffers := [], nextHandle := 4 }

/-- C7 witness: the poll semantics evaluated on the concrete state. -/
theorem poll_fifo_exactly_once_witness :
    (lookupA 1 c7State.completedRequests = some [] ∧ (5 : Nat) ≠ 0 ∧
        findCameraByPtr c7State.cameras 5 = some 1 ∧
        findRequestByPtr c7State.requests 11 = some 2 ∧
        findRequestByPtr c7State.requests 12 = some 3) ∧
      ((Camera_nativePollCompletedRequest c7State 1).1 = 0 ∧
        (Camera_nativePollCompletedRequest
          (requestCompleted (requestCompleted c7State 11 5) 12 5) 1).1 = 2 ∧
        (Camera_nativePollCompletedRequest
          ((Camera_nativePollCompletedRequest
            (requestCompleted (requestCompleted c7State 11 5) 12 5) 1).2) 1).1 = 3 ∧
        (Camera_nativePollCompletedRequest
          ((Camera_nativePollCompletedRequest
            ((Camera_nativePollCompletedRequest
              (requestCompleted (requestCompleted c7State 11 5) 12 5) 1).2) 1).2) 1).1 = 0) :=
  ⟨⟨by decide, by decide, by decide, by decide, by decide⟩,
    poll_fifo_exactly_once c7State 1 2 3 5 11 12
      (by decide) (by decide) (by decide) (by decide) (by decide)⟩

/-! ### C10: polling a completion whose Operation handle was destroyed -/

/-- C10: when the oldest completion's request no longer resolves to any
Operation handle (it was destroyed before the poll), pollCompleted still pops
the completion and returns the 0 sentinel; the queue afterwards holds the
remaining completions, so with no others pending the next poll also returns 0,
indistinguishable from an empty queue, and the completion is not redelivered. -/
theorem poll_destroyed_request_returns_zero (s : NativeState) (camH : Int)
    (r : Nat) (rest : List Nat)
    (hq : lookupA camH s.completedRequests = some (r :: rest))
    (hmiss : findRequestByPtr s.requests r = none) :
    (Camera_nativePollCompletedRequest s camH).1 = 0 ∧
      lookupA camH ((Camera_nativePollCompletedRequest s camH).2).completedRequests = some rest ∧
      (rest = [] →
        (Camera_nativePollCompletedRequest
          ((Camera_nativePollCompletedRequest s camH).2) camH).1 = 0) := by
  have hpoll : Camera_nativePollCompletedRequest s camH =
      (0, { s with completedRequests := updateAssoc s.completedRequests camH rest }) := by
    simp only [Camera_nativePollCompletedRequest, hq, hmiss]
  have hq' : lookupA camH
      (updateAssoc s.completedRequests camH rest) = some rest :=
    lookupA_updateAssoc_self s.completedRequests camH rest (r :: rest) hq
  refine ⟨by rw [hpoll], by rw [hpoll]; exact hq', ?_⟩
  intro hrest
  rw [hpoll]
  unfold Camera_nativePollCompletedRequest
  rw [hq', hrest]

/-- A state for the destroyed-handle witness: one completion (native pointer
42) queued for camera handle 1, with an empty Request table (the handle was
destroyed). -/
def c10State : NativeState :=
  { cameras := [(1, ⟨5, 0⟩)], configurations := [], allocators := [], requests := [],
    completedRequests := [(1, [42])], mappedBuffers := [], nextHandle := 4 }

/-- C10 witness: the destroyed-handle poll behaviour on the concrete state. -/
theorem poll_destroyed_request_returns_zero_witness :
    (lookupA 1 c10State.completedRequests = some [42] ∧
        findRequestByPtr c10State.requests 42 = none) ∧
      ((Camera_nativePollCompletedRequest c10State 1).1 = 0 ∧
        lookupA 1 ((Camera_nativePollCompletedRequest c10State 1).2).completedRequests =
          some [] ∧
        (([] : List Nat) = [] →
          (Camera_nativePollCompletedRequest
            ((Camera_nativePollCompletedRequest c10State 1).2) 1).1 = 0)) :=
  ⟨⟨by decide, by decide⟩,
    poll_destroyed_request_returns_zero c10State 1 42 [] (by decide) (by decide)⟩

/-! ### C8: handle allocation -/

theorem wrapI64_eq_self (x : Int) (hlo : -(2 ^ 63) ≤ x) (hhi : x < 2 ^ 63) :
    wrapI64 x = x := by
  unfold wrapI64
  have h0 : (0 : Int) ≤ x + 2 ^ 63 := by omega
  have h1 : x + 2 ^ 63 < 2 ^ 64 := by omega
  rw [Int.emod_eq_of_lt h0 h1]
  omega

/-- Closed form of the returned handle values while the counter stays below
the signed 64-bit bound. -/
theorem handleSeq_closed (n : Nat) : ∀ st : Int, 0 ≤ st → st + (n : Int) ≤ 2 ^ 63 →
    handleSeq n st = (List.range n).map (fun i : Nat => st + (i : Int)) := by
  induction n with
  | zero => intro st _ _; simp [handleSeq]
  | succ m ih =>
    intro st hst hbound
    have hpow : (2 : Int) ^ 63 = 9223372036854775808 := by norm_num
    rcases Nat.eq_zero_or_pos m with hm | hm
    · subst hm
      show (allocHandle st).1 :: handleSeq 0 (allocHandle st).2 = _
      simp [handleSeq, allocHandle, List.range_succ]
    · have hmi : (1 : Int) ≤ (m : Int) := by exact_mod_cast hm
      have hcast : ((m + 1 : Nat) : Int) = (m : Int) + 1 := by push_cast; ring
      rw [hcast, hpow] at hbound
      have hwrap : wrapI64 (st + 1) = st + 1 := by
        apply wrapI64_eq_self <;> rw [hpow] <;> omega
      have hrec := ih (st + 1) (by omega) (by rw [hpow]; omega)
      show (allocHandle st).1 :: handleSeq m (allocHandle st).2 = _
      simp only [allocHandle, hwrap, hrec]
      rw [List.range_succ_eq_map]
      simp only [List.map_cons, List.map_map, Nat.cast_zero, add_zero]
      congr 1
      apply List.map_congr_left
      intro i _
      simp only [Function.comp_apply]
      push_cast
      ring

/-- Closed form of the counter value after n calls, within the bound. -/
theorem handleStateAfter_closed (n : Nat) : ∀ st : Int, 0 ≤ st → st + (n : Int) ≤ 2 ^ 63 →
    handleStateAfter n st = if n = 0 then st else wrapI64 (st + (n : Int)) := by
  induction n with
  | zero => intro st _ _; simp [handleStateAfter]
  | succ m ih =>
    intro st hst hbound
    have hpow : (2 : Int) ^ 63 = 9223372036854775808 := by norm_num
    rcases Nat.eq_zero_or_pos m with hm | hm
    · subst hm
      show handleStateAfter 0 (allocHandle st).2 = _
      simp [handleStateAfter, allocHandle]
    · have hmi : (1 : Int) ≤ (m : Int) := by exact_mod_cast hm
      have hcast : ((m + 1 : Nat) : Int) = (m : Int) + 1 := by push_cast; ring
      rw [hcast, hpow] at hbound
      have hwrap : wrapI64 (st + 1) = st + 1 := by
        apply wrapI64_eq_self <;> rw [hpow] <;> omega
      have hrec := ih (st + 1) (by omega) (by rw [hpow]; omega)
      show handleStateAfter m (allocHandle st).2 = _
      simp only [allocHandle, hwrap, hrec, if_neg (Nat.pos_iff_ne_zero.mp hm)]
      rw [if_neg (Nat.succ_ne_zero m)]
      congr 1
      rw [hcast]
      ring

/-- handleSeq splits across a sum of call counts. -/
theorem handleSeq_append (m : Nat) : ∀ (n : Nat) (st : Int),
    handleSeq (m + n) st = handleSeq m st ++ handleSeq n (handleStateAfter m st) := by
  induction m with
  | zero => intro n st; simp [handleSeq, handleStateAfter]
  | succ k ih =>
    intro n st
    have harr : k + 1 + n = (k + n) + 1 := by omega
    rw [harr]
    show (allocHandle st).1 :: handleSeq (k + n) (allocHandle st).2 = _
    rw [ih n (allocHandle st).2]
    rfl

/-- C8 counterexample: the claim quantifies over every N, but the handle
counter is a signed 64-bit value: at N = 2^63 calls the last returned value
wraps to -2^63, so the N values are not strictly increasing. -/
theorem allocHandle_wraps_counterexample :
    ¬ List.Pairwise (· < ·) (handleSeq (2 ^ 63) 1) := by
  intro hpw
  have hsplitN : (2 ^ 63 : Nat) = 9223372036854775807 + 1 := by norm_num
  rw [hsplitN, handleSeq_append 9223372036854775807 1 1] at hpw
  have hb0 : (0 : Int) ≤ 1 := by norm_num
  have hbound : (1 : Int) + ((9223372036854775807 : Nat) : Int) ≤ 2 ^ 63 := by norm_num
  have hclosed := handleSeq_closed 9223372036854775807 1 hb0 hbound
  have hstate : handleStateAfter 9223372036854775807 1 = -(2 ^ 63) := by
    rw [handleStateAfter_closed 9223372036854775807 1 hb0 hbound]
    rw [if_neg (by norm_num : (9223372036854775807 : Nat) ≠ 0)]
    show wrapI64 (1 + ((9223372036854775807 : Nat) : Int)) = -(2 ^ 63)
    unfold wrapI64
    norm_num
  rw [hclosed, hstate] at hpw
  rw [List.pairwise_append] at hpw
  have hmem : ((2 : Int) ^ 63 - 1) ∈
      (List.range 9223372036854775807).map (fun i : Nat => (1 : Int) + (i : Int)) := by
    rw [List.mem_map]
    refine ⟨9223372036854775806, ?_, ?_⟩
    · rw [List.mem_range]
      norm_num
    · norm_num
  have hb : (-(2 ^ 63) : Int) ∈ handleSeq 1 (-(2 ^ 63)) := by
    simp [handleSeq, allocHandle]
  have hlt := hpw.2.2 _ hmem _ hb
  norm_num at hlt

/-- C8 (amended): for every N up to 2^63 - 1 (i.e. before the signed 64-bit
counter would overflow), calling allocate() N times starting from the initial
counter value 1 returns N strictly increasing values, all at least 1, so 0 is
never returned and no value is reused. -/
theorem allocHandle_strictly_increasing_bounded (N : Nat) (hN : N ≤ 2 ^ 63 - 1) :
    List.Pairwise (· < ·) (handleSeq N 1) ∧ (∀ x ∈ handleSeq N 1, 1 ≤ x) ∧
      (0 : Int) ∉ handleSeq N 1 ∧ (handleSeq N 1).Nodup := by
  have hN' : N ≤ 9223372036854775807 := by
    norm_num at hN
    exact hN
  have hpow : (2 : Int) ^ 63 = 9223372036854775808 := by norm_num
  have hbound : (1 : Int) + (N : Int) ≤ 2 ^ 63 := by
    have : (N : Int) ≤ 9223372036854775807 := by exact_mod_cast hN'
    rw [hpow]
    omega
  have hclosed := handleSeq_closed N 1 (by norm_num) hbound
  rw [hclosed]
  have hpw : List.Pairwise (· < ·)
      ((List.range N).map (fun i : Nat => (1 : Int) + (i : Int))) := by
    rw [List.pairwise_map]
    refine (List.pairwise_lt_range N).imp ?_
    intro a b hab
    have : (a : Int) < (b : Int) := by exact_mod_cast hab
    omega
  have hmem : ∀ x ∈ (List.range N).map (fun i : Nat => (1 : Int) + (i : Int)), 1 ≤ x := by
    intro x hx
    rw [List.mem_map] at hx
    obtain ⟨i, _, hi⟩ := hx
    subst hi
    show (1 : Int) ≤ 1 + (i : Int)
    have : (0 : Int) ≤ (i : Int) := Int.ofNat_nonneg i
    omega
  have hnd : ((List.range N).map (fun i : Nat => (1 : Int) + (i : Int))).Nodup :=
    hpw.imp (fun h => ne_of_lt h)
  refine ⟨hpw, hmem, fun h0 => ?_, hnd⟩
  have := hmem 0 h0
  omega

/-- C8 witness: the amended statement at N = 4. -/
theorem allocHandle_strictly_increasing_bounded_witness :
    (4 : Nat) ≤ 2 ^ 63 - 1 ∧
      (List.Pairwise (· < ·) (handleSeq 4 1) ∧ (∀ x ∈ handleSeq 4 1, 1 ≤ x) ∧
        (0 : Int) ∉ handleSeq 4 1 ∧ (handleSeq 4 1).Nodup) :=
  ⟨by decide, allocHandle_strictly_increasing_bounded 4 (by decide)⟩

/-! ### C2, C5, C6: buffer mapping -/

/-- A 2-plane frame buffer whose first plane declares a leading offset of
4096 and payload lengths 12288 and 6144 (both planes mappable). -/
def demoBuffer : FrameBufferObj :=
  ⟨[⟨3, 4096, 12288, true, []⟩, ⟨4, 0, 6144, true, []⟩]⟩

/-- A state with a valid allocator (handle 1) holding demoBuffer for the
stream of the single-stream configuration (handle 2). -/
def mapDemoState : NativeState :=
  { cameras := [], configurations := [(2, [⟨7⟩])],
    allocators := [(1, ⟨[(7, [demoBuffer])]⟩)], requests := [],
    completedRequests := [], mappedBuffers := [], nextHandle := 5 }

/-- C2 (code bug, evaluated at the failing input): with a valid allocator and
a valid single-stream configuration, nativeMapBuffer with streamIndex 1 (one
past the end) or streamIndex -1 reaches configuration->at(streamIndex) with
no bounds check on the stream index — an out-of-bounds native access
(undefined behaviour), not the claimed error outcome.  Only the buffer index
is validated. -/
theorem mapBuffer_stream_oob_ub :
    FrameBuffer_nativeMapBuffer mapDemoState 1 2 1 0 = .ub ∧
      FrameBuffer_nativeMapBuffer mapDemoState 1 2 (-1) 0 = .ub := by
  decide

/-- The plane loop keeps the mmap count equal to the number of accumulated
planes, so every roll-back unmaps exactly as many planes as were mapped. -/
theorem mapPlanesLoop_fail_balanced :
    ∀ (ps : List FdPlane) (acc : List MappedPlane) (total mm : Nat)
      (msg : String) (m u : Nat), mm = acc.length →
      mapPlanesLoop ps acc total mm = .fail msg m u → m = u := by
  intro ps
  induction ps with
  | nil =>
    intro acc total mm msg m u hmm h
    simp [mapPlanesLoop] at h
  | cons p rest ih =>
    intro acc total mm msg m u hmm h
    unfold mapPlanesLoop at h
    split at h
    · injection h with h1 h2 h3
      omega
    · split at h
      · injection h with h1 h2 h3
        omega
      · split at h
        · injection h with h1 h2 h3
          omega
        · exact ih (acc ++ [_]) (total + p.length) (mm + 1) msg m u (by simp [hmm]) h

/-- On the success path the accumulated total is the sum of the declared
per-plane payload lengths. -/
theorem mapPlanesLoop_ok_total :
    ∀ (ps : List FdPlane) (acc : List MappedPlane) (total mm : Nat)
      (pl : List MappedPlane) (tot : Nat),
      mapPlanesLoop ps acc total mm = .ok pl tot →
      tot = total + (ps.map (fun p => p.length)).sum := by
  intro ps
  induction ps with
  | nil =>
    intro acc total mm pl tot h
    injection h with h1 h2
    simp [h2.symm]
  | cons p rest ih =>
    intro acc total mm pl tot h
    unfold mapPlanesLoop at h
    split at h
    · exact absurd h (by simp)
    · split at h
      · exact absurd h (by simp)
      · split at h
        · exact absurd h (by simp)
        · have := ih (acc ++ [_]) (total + p.length) (mm + 1) pl tot h
          simp only [List.map_cons, List.sum_cons]
          omega

/-- C6: mapping is all-or-nothing.  Whenever nativeMapBuffer surfaces an
error — invalid plane descriptor, zero computed size, or a failed mmap (as
well as the pre-loop validation errors) — the number of residual mappings
left by the call is zero and the global state is unchanged, so no view handle
is registered. -/
theorem mapBuffer_all_or_nothing (s : NativeState) (a c si bi : Int) (msg : String)
    (s' : NativeState) (k : Nat)
    (h : FrameBuffer_nativeMapBuffer s a c si bi = .err msg s' k) :
    k = 0 ∧ s' = s := by
  unfold FrameBuffer_nativeMapBuffer at h
  split at h
  · injection h with h1 h2 h3
    exact ⟨h3.symm, h2.symm⟩
  · split at h
    · injection h with h1 h2 h3
      exact ⟨h3.symm, h2.symm⟩
    · split at h
      · exact absurd h (by simp)
      · simp only [] at h
        split at h
        · injection h with h1 h2 h3
          exact ⟨h3.symm, h2.symm⟩
        · split at h
          · injection h with h1 h2 h3
            exact ⟨h3.symm, h2.symm⟩
          · split at h
            · rename_i msg0 mm um heq
              injection h with h1 h2 h3
              have hbal := mapPlanesLoop_fail_balanced _ [] 0 0 msg0 mm um rfl heq
              refine ⟨?_, h2.symm⟩
              omega
            · exact absurd h (by simp)

/-- A buffer whose single plane carries an invalid descriptor (fd -1). -/
def badFdBuffer : FrameBufferObj := ⟨[⟨-1, 0, 5, true, []⟩]⟩

/-- A state with a valid allocator (handle 1) holding badFdBuffer for the
stream of the single-stream configuration (handle 2). -/
def badFdState : NativeState :=
  { cameras := [], configurations := [(2, [⟨7⟩])],
    allocators := [(1, ⟨[(7, [badFdBuffer])]⟩)], requests := [],
    completedRequests := [], mappedBuffers := [], nextHandle := 5 }

/-- C6 witness: a failing map call (invalid plane descriptor) evaluated on
the concrete state leaves zero residual mappings and the state unchanged. -/
theorem mapBuffer_all_or_nothing_witness :
    (FrameBuffer_nativeMapBuffer badFdState 1 2 0 0 =
        .err "Invalid plane fd" badFdState 0) ∧
      ((0 : Nat) = 0 ∧ badFdState = badFdState) :=
  ⟨by decide, mapBuffer_all_or_nothing badFdState 1 2 0 0 "Invalid plane fd"
    badFdState 0 (by decide)⟩

/-- The total length reported for the demo mapping. -/
def mapDemoLength : Nat :=
  match FrameBuffer_nativeMapBuffer mapDemoState 1 2 0 0 with
  | .ok h s' => FrameBuffer_nativeGetBufferSize s' h
  | _ => 0

/-- C5 counterexample: mapping the 2-plane buffer with declared payload
lengths 12288 and 6144 and a declared leading offset of 4096 on the first
plane yields a view length of exactly 18432 — not 18432 minus the declared
leading offsets, as the claim states. -/
theorem view_length_offsets_counterexample :
    mapDemoLength = 18432 ∧ mapDemoLength ≠ 18432 - (4096 + 0) := by
  decide

/-- C5 (amended): for every successfully mapped view, getLength equals the
sum of the per-plane declared payload lengths (each plane's leading offset
region is not part of its declared length, and the offsets do not otherwise
change the total); in particular two planes of declared lengths 12288 and
6144 yield exactly 18432 whatever the declared offsets. -/
theorem view_length_sum_of_plane_lengths (s : NativeState) (a c si bi : Int)
    (alloc : AllocatorObj) (cfg : List StreamCfg) (sc : StreamCfg)
    (buffers : List FrameBufferObj) (fb : FrameBufferObj) (h : Int) (s' : NativeState)
    (hA : lookupA a s.allocators = some alloc)
    (hC : lookupA c s.configurations = some cfg)
    (hS : cfgAt cfg si = some sc)
    (hB : (lookupA sc.streamPtr alloc.buffers).getD [] = buffers)
    (hbi : 0 ≤ bi)
    (hfb : buffers.get? bi.toNat = some fb)
    (hok : FrameBuffer_nativeMapBuffer s a c si bi = .ok h s') :
    FrameBuffer_nativeGetBufferSize s' h = (fb.planes.map (fun p => p.length)).sum := by
  have hlen : bi.toNat < buffers.length := (List.get?_eq_some.mp hfb).1
  have hbieq : bi = (bi.toNat : Int) := (Int.toNat_of_nonneg hbi).symm
  have hcond : ¬ (bi < 0 ∨ (buffers.length : Int) ≤ bi) := by
    push_neg
    constructor
    · omega
    · rw [hbieq]
      exact_mod_cast hlen
  simp only [FrameBuffer_nativeMapBuffer, hA, hC, hS, hB, if_neg hcond, hfb,
    Option.getD_some] at hok
  split at hok
  · exact absurd hok (by simp)
  · split at hok
    · exact absurd hok (by simp)
    · rename_i hne planes total heq
      injection hok with h1 h2
      subst h1
      subst h2
      show FrameBuffer_nativeGetBufferSize _ s.nextHandle = _
      unfold FrameBuffer_nativeGetBufferSize
      rw [lookupA_upsertAssoc_self]
      have := mapPlanesLoop_ok_total fb.planes [] 0 0 planes total heq
      simpa using this

/-- The state after the successful demo map call: view handle 5 holds the two
mapped planes and totalLength 18432; the counter advanced to 6. -/
def mapDemoState' : NativeState :=
  { cameras := [], configurations := [(2, [⟨7⟩])],
    allocators := [(1, ⟨[(7, [demoBuffer])]⟩)], requests := [],
    completedRequests := [],
    mappedBuffers := [(5, ⟨[⟨[], 16384, 4096⟩, ⟨[], 6144, 0⟩], 18432⟩)],
    nextHandle := 6 }

/-- C5 witness: the amended statement evaluated on the concrete demo map. -/
theorem view_length_sum_of_plane_lengths_witness :
    (lookupA 1 mapDemoState.allocators = some ⟨[(7, [demoBuffer])]⟩ ∧
        lookupA 2 mapDemoState.configurations = some [⟨7⟩] ∧
        cfgAt [⟨7⟩] 0 = some ⟨7⟩ ∧
        (lookupA (7 : Nat) (⟨[(7, [demoBuffer])]⟩ : AllocatorObj).buffers).getD [] =
          [demoBuffer] ∧
        (0 : Int) ≤ 0 ∧
        [demoBuffer].get? (0 : Int).toNat = some demoBuffer ∧
        FrameBuffer_nativeMapBuffer mapDemoState 1 2 0 0 = .ok 5 mapDemoState') ∧
      FrameBuffer_nativeGetBufferSize mapDemoState' 5 =
        (demoBuffer.planes.map (fun p => p.length)).sum :=
  ⟨⟨by decide, by decide, by decide, by decide, by decide, by decide, by decide⟩,
    view_length_sum_of_plane_lengths mapDemoState 1 2 0 0 ⟨[(7, [demoBuffer])]⟩ [⟨7⟩] ⟨7⟩
      [demoBuffer] demoBuffer 5 mapDemoState' (by decide) (by decide) (by decide) (by decide)
      (by decide) (by decide) (by decide)⟩

/-! ### C4: bounded copy-out -/

/-- Characterisation of the copy loop: with well-formed planes, a remaining
count bounded by the total payload, and enough room in dest, the loop
replaces exactly the rem bytes starting at d0 with the concatenated plane
payloads and leaves everything else unchanged. -/
theorem copyPlanes_eq (ps : List MappedPlane) :
    ∀ (dest : List Nat) (d0 rem : Nat),
      (∀ p ∈ ps, p.offset ≤ p.length ∧ p.data.length = p.length) →
      rem ≤ (ps.map (fun p => p.length - p.offset)).sum →
      d0 + rem ≤ dest.length →
      copyPlanes ps dest d0 rem =
        dest.take d0 ++ ((ps.map (fun p => p.data.drop p.offset)).flatten).take rem ++
          dest.drop (d0 + rem) := by
  induction ps with
  | nil =>
    intro dest d0 rem hwf hsum hroom
    simp only [List.map_nil, List.sum_nil, Nat.le_zero] at hsum
    subst hsum
    simp [copyPlanes, List.take_append_drop]
  | cons p ps ih =>
    intro dest d0 rem hwf hsum hroom
    rcases Nat.eq_zero_or_pos rem with hrem | hrem
    · subst hrem
      simp [copyPlanes, List.take_append_drop]
    · obtain ⟨hp, hps⟩ := List.forall_mem_cons.mp hwf
      obtain ⟨hoff, hdata⟩ := hp
      have hd0 : d0 ≤ dest.length := by omega
      have hpay : (p.data.drop p.offset).length = p.length - p.offset := by
        rw [List.length_drop, hdata]
      have hclrem : min rem (p.length - p.offset) ≤ rem := Nat.min_le_left _ _
      have hclpay : min rem (p.length - p.offset) ≤ p.length - p.offset :=
        Nat.min_le_right _ _
      have hsrc : ((p.data.drop p.offset).take (min rem (p.length - p.offset))).length =
          min rem (p.length - p.offset) := by
        rw [List.length_take, hpay]
        omega
      have hinb : d0 +
          ((p.data.drop p.offset).take (min rem (p.length - p.offset))).length ≤
          dest.length := by
        rw [hsrc]
        omega
      have hdest' : setByteArrayRegion dest d0
          ((p.data.drop p.offset).take (min rem (p.length - p.offset))) =
          dest.take d0 ++ (p.data.drop p.offset).take (min rem (p.length - p.offset)) ++
            dest.drop (d0 + min rem (p.length - p.offset)) := by
        unfold setByteArrayRegion
        rw [if_pos hinb, hsrc]
      have hstep : copyPlanes (p :: ps) dest d0 rem =
          copyPlanes ps (setByteArrayRegion dest d0
              ((p.data.drop p.offset).take (min rem (p.length - p.offset))))
            (d0 + min rem (p.length - p.offset))
            (rem - min rem (p.length - p.offset)) := by
        simp only [copyPlanes]
        rw [if_neg (Nat.pos_iff_ne_zero.mp hrem)]
      have hsum' : rem - min rem (p.length - p.offset) ≤
          (ps.map (fun q => q.length - q.offset)).sum := by
        simp only [List.map_cons, List.sum_cons] at hsum
        omega
      have hroom' : (d0 + min rem (p.length - p.offset)) +
          (rem - min rem (p.length - p.offset)) ≤
          (dest.take d0 ++ (p.data.drop p.offset).take (min rem (p.length - p.offset)) ++
            dest.drop (d0 + min rem (p.length - p.offset))).length := by
        simp only [List.length_append, List.length_take, List.length_drop, hsrc]
        omega
      have hih := ih (dest.take d0 ++
          (p.data.drop p.offset).take (min rem (p.length - p.offset)) ++
          dest.drop (d0 + min rem (p.length - p.offset)))
        (d0 + min rem (p.length - p.offset)) (rem - min rem (p.length - p.offset))
        hps hsum' hroom'
      rw [hstep, hdest', hih]
      have hA : (dest.take d0).length = d0 := by
        rw [List.length_take]
        omega
      -- the prefix of the updated dest up to d0 + copyLen is exactly
      -- dest.take d0 followed by the bytes just written
      have htakeA : (dest.take d0).take (d0 + min rem (p.length - p.offset)) =
          dest.take d0 := by
        apply List.take_of_length_le
        rw [hA]
        omega
      have htake1 : (dest.take d0 ++
          ((p.data.drop p.offset).take (min rem (p.length - p.offset)) ++
            dest.drop (d0 + min rem (p.length - p.offset)))).take
          (d0 + min rem (p.length - p.offset)) =
          dest.take d0 ++ (p.data.drop p.offset).take (min rem (p.length - p.offset)) := by
        rw [List.take_append_eq_append_take, htakeA, hA]
        congr 1
        rw [List.take_append_eq_append_take]
        have h1 : ((p.data.drop p.offset).take (min rem (p.length - p.offset))).take
            (d0 + min rem (p.length - p.offset) - d0) =
            (p.data.drop p.offset).take (min rem (p.length - p.offset)) := by
          apply List.take_of_length_le
          rw [hsrc]
          omega
        rw [h1]
        have h2 : d0 + min rem (p.length - p.offset) - d0 -
            ((p.data.drop p.offset).take (min rem (p.length - p.offset))).length = 0 := by
          rw [hsrc]
          omega
        rw [h2, List.take_zero, List.append_nil]
      -- dropping past the whole written region recovers the tail of dest
      have hdrop1 : (dest.take d0 ++
          ((p.data.drop p.offset).take (min rem (p.length - p.offset)) ++
            dest.drop (d0 + min rem (p.length - p.offset)))).drop (d0 + rem) =
          dest.drop (d0 + rem) := by
        rw [List.drop_append_eq_append_drop]
        have h1 : (dest.take d0).drop (d0 + rem) = [] := by
          apply List.drop_eq_nil_of_le
          rw [hA]
          omega
        rw [h1, List.nil_append, hA, List.drop_append_eq_append_drop]
        have h2 : ((p.data.drop p.offset).take (min rem (p.length - p.offset))).drop
            (d0 + rem - d0) = [] := by
          apply List.drop_eq_nil_of_le
          rw [hsrc]
          omega
        rw [h2, List.nil_append, hsrc, List.drop_drop]
        congr 1
        omega
      -- splitting the concatenated payload at the first plane
      have hflat : (((p :: ps).map (fun q => q.data.drop q.offset)).flatten).take rem =
          (p.data.drop p.offset).take (min rem (p.length - p.offset)) ++
            ((ps.map (fun q => q.data.drop q.offset)).flatten).take
              (rem - min rem (p.length - p.offset)) := by
        simp only [List.map_cons, List.flatten_cons]
        rw [List.take_append_eq_append_take, hpay]
        congr 1
        · rcases Nat.le_total rem (p.length - p.offset) with hle | hle
          · rw [Nat.min_eq_left hle]
          · rw [Nat.min_eq_right hle,
              List.take_of_length_le (by rw [hpay]; exact hle), ← hpay, List.take_length]
        · congr 1
          omega
      have harr : d0 + min rem (p.length - p.offset) +
          (rem - min rem (p.length - p.offset)) = d0 + rem := by
        omega
      rw [harr]
      simp only [List.append_assoc]
      rw [htake1, hdrop1, hflat]
      simp only [List.append_assoc]

/-- C4: for every valid MappedView, nativeCopyBuffer copies exactly
min(maxLength, totalLength) bytes, walking the planes in order, skipping each
plane's leading offset region, writing contiguously into dest starting at
destOffset, and never writing past the end of dest: the result is dest with
exactly that byte range replaced, and its length is unchanged.  The
hypothesis d0 + min(L, totalLength) ≤ dest.length is the claim's reading that
maxLength conveys the room available in the destination, so a destination
smaller than the total mapped length truncates the copy. -/
theorem copyBuffer_copies_min_truncates (s : NativeState) (mapH : Int) (mb : MappedBuffer)
    (dest : List Nat) (d0 L : Nat)
    (hmb : lookupA mapH s.mappedBuffers = some mb)
    (hwf : ∀ p ∈ mb.planes, p.offset ≤ p.length ∧ p.data.length = p.length)
    (htot : mb.totalLength = (mb.planes.map (fun p => p.length - p.offset)).sum)
    (hroom : d0 + min L mb.totalLength ≤ dest.length) :
    FrameBuffer_nativeCopyBuffer s mapH dest d0 L =
      (dest.take d0 ++ (payloadBytes mb).take (min L mb.totalLength) ++
        dest.drop (d0 + min L mb.totalLength), none) ∧
      ((FrameBuffer_nativeCopyBuffer s mapH dest d0 L).1).length = dest.length := by
  have hmain : FrameBuffer_nativeCopyBuffer s mapH dest d0 L =
      (dest.take d0 ++ (payloadBytes mb).take (min L mb.totalLength) ++
        dest.drop (d0 + min L mb.totalLength), none) := by
    have := copyPlanes_eq mb.planes dest d0 (min L mb.totalLength) hwf
      (by rw [← htot]; exact Nat.min_le_right _ _) hroom
    simp only [FrameBuffer_nativeCopyBuffer, hmb, payloadBytes]
    rw [this]
  refine ⟨hmain, ?_⟩
  rw [hmain]
  have hpaylen : (payloadBytes mb).length =
      (mb.planes.map (fun p => p.length - p.offset)).sum := by
    unfold payloadBytes
    rw [List.length_flatten, List.map_map]
    congr 1
    apply List.map_congr_left
    intro p hp
    simp only [Function.comp_apply, List.length_drop]
    rw [(hwf p hp).2]
  simp only [List.length_append, List.length_take, List.length_drop, hpaylen, ← htot]
  omega

/-- A state with a mapped view (handle 4) of two planes: mapped bytes
[9, 8, 3, 4, 5] with offset 2 (payload [3, 4, 5]) and [6, 7, 8] with offset 0
(payload [6, 7, 8]); totalLength 6. -/
def copyDemoState : NativeState :=
  { cameras := [], configurations := [], allocators := [], requests := [],
    completedRequests := [],
    mappedBuffers := [(4, ⟨[⟨[9, 8, 3, 4, 5], 5, 2⟩, ⟨[6, 7, 8], 3, 0⟩], 6⟩)],
    nextHandle := 9 }

/-- The demo view of copyDemoState. -/
def copyDemoView : MappedBuffer := ⟨[⟨[9, 8, 3, 4, 5], 5, 2⟩, ⟨[6, 7, 8], 3, 0⟩], 6⟩

/-- C4 witness: the copy characterisation evaluated on the concrete view,
dest of length 7, destOffset 1 and maxLength 4: exactly min(4, 6) = 4 payload
bytes [3, 4, 5, 6] are written at positions 1..4 and the length of dest is
preserved. -/
theorem copyBuffer_copies_min_truncates_witness :
    (lookupA 4 copyDemoState.mappedBuffers = some copyDemoView ∧
        (∀ p ∈ copyDemoView.planes, p.offset ≤ p.length ∧ p.data.length = p.length) ∧
        copyDemoView.totalLength =
          (copyDemoView.planes.map (fun p => p.length - p.offset)).sum ∧
        1 + min 4 copyDemoView.totalLength ≤ ([0, 0, 0, 0, 0, 0, 0] : List Nat).length) ∧
      (FrameBuffer_nativeCopyBuffer copyDemoState 4 [0, 0, 0, 0, 0, 0, 0] 1 4 =
          (([0, 0, 0, 0, 0, 0, 0] : List Nat).take 1 ++
            (payloadBytes copyDemoView).take (min 4 copyDemoView.totalLength) ++
            ([0, 0, 0, 0, 0, 0, 0] : List Nat).drop (1 + min 4 copyDemoView.totalLength),
            none) ∧
        ((FrameBuffer_nativeCopyBuffer copyDemoState 4 [0, 0, 0, 0, 0, 0, 0] 1 4).1).length =
          ([0, 0, 0, 0, 0, 0, 0] : List Nat).length) :=
  ⟨⟨by decide, by decide, by decide, by decide⟩,
    copyBuffer_copies_min_truncates copyDemoState 4 copyDemoView [0, 0, 0, 0, 0, 0, 0] 1 4
      (by decide) (by decide) (by decide) (by decide)⟩

end LibCamera4j
